import Mathlib

/-!
# Verification of the UBX GPS frame decoder (`src/sensors/gps.rs`)

This file gives a shallow embedding of the UBX protocol decoder from the
repository's `gps.rs`: the parser state machine (`UbxParser.parse_byte`),
the rolling checksum, the NAV-PVT payload decode, and the two static
configuration commands.  Machine integers (`u8`, `u16`, `u32`, `i32`) are
modelled as `Nat`/`Int` with explicit `% 2^w` where wrap-around matters.
`Option` models Rust's `Option`.  Theorems below settle the specification
claims about this code.
-/

set_option maxRecDepth 100000

namespace UbxGps

/-- Constant `UBX_SYNC_CHAR_1` from the source. -/
def UBX_SYNC_CHAR_1 : Nat := 0xB5

/-- Constant `UBX_SYNC_CHAR_2` from the source. -/
def UBX_SYNC_CHAR_2 : Nat := 0x62

/-- Constant `UBX_CLASS_NAV` from the source. -/
def UBX_CLASS_NAV : Nat := 0x01

/-- Constant `UBX_NAV_PVT` from the source. -/
def UBX_NAV_PVT : Nat := 0x07

/-- The parser states, exactly the Rust `enum UbxParserState`. -/
inductive UbxParserState where
  | WaitingForSync1
  | WaitingForSync2
  | ReadingClass
  | ReadingId
  | ReadingLength1
  | ReadingLength2
  | ReadingPayload
  | ReadingChecksum1
  | ReadingChecksum2
  deriving DecidableEq

/-- The Rust `struct UbxMessage`.  The field `class` is renamed `cls`
(`class` is a Lean keyword); the 256-byte payload buffer becomes a
`List Nat` of length 256. -/
structure UbxMessage where
  cls : Nat
  id : Nat
  length : Nat
  payload : List Nat
  checksum_a : Nat
  checksum_b : Nat
  deriving DecidableEq

/-- Constructor `UbxMessage::new()` from the source. -/
def UbxMessage.new : UbxMessage :=
  { cls := 0, id := 0, length := 0, payload := List.replicate 256 0,
    checksum_a := 0, checksum_b := 0 }

/-- The Rust `struct GpsData` (the decoded NAV-PVT record). -/
structure GpsData where
  valid : Bool
  year : Nat
  month : Nat
  day : Nat
  hour : Nat
  minute : Nat
  second : Nat
  nano : Int
  latitude : Int
  longitude : Int
  height_msl : Int
  horizontal_accuracy : Nat
  vertical_accuracy : Nat
  ground_speed : Int
  satellites : Nat
  deriving DecidableEq

/-- The Rust `struct UbxParser`. -/
structure UbxParser where
  state : UbxParserState
  message : UbxMessage
  payload_index : Nat
  calculated_checksum_a : Nat
  calculated_checksum_b : Nat
  deriving DecidableEq

/-- Constructor `UbxParser::new()` from the source. -/
def UbxParser.new : UbxParser :=
  { state := .WaitingForSync1, message := UbxMessage.new, payload_index := 0,
    calculated_checksum_a := 0, calculated_checksum_b := 0 }

/-- Method `UbxParser::reset` from the source. -/
def UbxParser.reset (p : UbxParser) : UbxParser :=
  { p with
    state := .WaitingForSync1
    payload_index := 0
    calculated_checksum_a := 0
    calculated_checksum_b := 0 }

/-- Method `UbxParser::calculate_checksum`: the u8 `wrapping_add`s become `% 256`. -/
def UbxParser.calculate_checksum (p : UbxParser) (byte : Nat) : UbxParser :=
  let a := (p.calculated_checksum_a + byte) % 256
  { p with
    calculated_checksum_a := a
    calculated_checksum_b := (p.calculated_checksum_b + a) % 256 }

/-- Little-endian `u16::from_le_bytes`. -/
def u16_le (b0 b1 : Nat) : Nat := b0 + 256 * b1

/-- Little-endian `u32::from_le_bytes`. -/
def u32_le (b0 b1 b2 b3 : Nat) : Nat :=
  b0 + 256 * b1 + 65536 * b2 + 16777216 * b3

/-- Reinterpret a `u32` value as an `i32` (two's complement). -/
def toI32 (n : Nat) : Int :=
  if n % 4294967296 < 2147483648 then (n % 4294967296 : Int)
  else (n % 4294967296 : Int) - 4294967296

/-- Little-endian `i32::from_le_bytes`. -/
def i32_le (b0 b1 b2 b3 : Nat) : Int := toI32 (u32_le b0 b1 b2 b3)

/-- Method `UbxParser::parse_nav_pvt`: fixed-offset little-endian extraction from
the payload buffer; payload reads `payload[k]` become `payload.getD k 0`
(the buffer invariantly has length 256 and all reads are at `k < 84`). -/
def UbxParser.parse_nav_pvt (p : UbxParser) : Option GpsData :=
  if p.message.length < 84 then none
  else
    let payload := p.message.payload
    let year := u16_le (payload.getD 4 0) (payload.getD 5 0)
    let month := payload.getD 6 0
    let day := payload.getD 7 0
    let hour := payload.getD 8 0
    let minute := payload.getD 9 0
    let second := payload.getD 10 0
    let nano := i32_le (payload.getD 16 0) (payload.getD 17 0)
      (payload.getD 18 0) (payload.getD 19 0)
    let fix_type := payload.getD 20 0
    let flags := payload.getD 21 0
    let num_sv := payload.getD 23 0
    let longitude := i32_le (payload.getD 24 0) (payload.getD 25 0)
      (payload.getD 26 0) (payload.getD 27 0)
    let latitude := i32_le (payload.getD 28 0) (payload.getD 29 0)
      (payload.getD 30 0) (payload.getD 31 0)
    let h_msl := i32_le (payload.getD 36 0) (payload.getD 37 0)
      (payload.getD 38 0) (payload.getD 39 0)
    let h_acc := u32_le (payload.getD 40 0) (payload.getD 41 0)
      (payload.getD 42 0) (payload.getD 43 0)
    let v_acc := u32_le (payload.getD 44 0) (payload.getD 45 0)
      (payload.getD 46 0) (payload.getD 47 0)
    let g_speed := i32_le (payload.getD 60 0) (payload.getD 61 0)
      (payload.getD 62 0) (payload.getD 63 0)
    let has_valid_fix := decide (3 ≤ fix_type) && decide (Nat.land flags 1 ≠ 0)
    some { valid := has_valid_fix, year := year, month := month, day := day,
           hour := hour, minute := minute, second := second, nano := nano,
           latitude := latitude, longitude := longitude, height_msl := h_msl,
           horizontal_accuracy := h_acc, vertical_accuracy := v_acc,
           ground_speed := g_speed, satellites := num_sv }

/-- Method `UbxParser::process_message` from the source. -/
def UbxParser.process_message (p : UbxParser) : Option GpsData :=
  if p.message.cls = UBX_CLASS_NAV ∧ p.message.id = UBX_NAV_PVT then
    p.parse_nav_pvt
  else none

/-- Method `UbxParser::parse_byte`, returning the updated parser together with the
optional record.  `length |= (byte as u16) << 8` becomes
`Nat.lor length (byte * 256 % 65536)`; the payload-buffer store becomes
`List.set` (total, like the in-bounds Rust store). -/
def UbxParser.parse_byte (p : UbxParser) (byte : Nat) :
    UbxParser × Option GpsData :=
  match p.state with
  | .WaitingForSync1 =>
    if byte = UBX_SYNC_CHAR_1 then
      ({ p with state := .WaitingForSync2 }, none)
    else
      (p, none)
  | .WaitingForSync2 =>
    if byte = UBX_SYNC_CHAR_2 then
      ({ p with
         state := .ReadingClass
         calculated_checksum_a := 0
         calculated_checksum_b := 0 }, none)
    else
      (p.reset, none)
  | .ReadingClass =>
    let q := { p with message := { p.message with cls := byte } }
    let q := q.calculate_checksum byte
    ({ q with state := .ReadingId }, none)
  | .ReadingId =>
    let q := { p with message := { p.message with id := byte } }
    let q := q.calculate_checksum byte
    ({ q with state := .ReadingLength1 }, none)
  | .ReadingLength1 =>
    let q := { p with message := { p.message with length := byte } }
    let q := q.calculate_checksum byte
    ({ q with state := .ReadingLength2 }, none)
  | .ReadingLength2 =>
    let q := { p with message :=
      { p.message with length := Nat.lor p.message.length (byte * 256 % 65536) } }
    let q := q.calculate_checksum byte
    let q := { q with payload_index := 0 }
    if q.message.length = 0 then
      ({ q with state := .ReadingChecksum1 }, none)
    else if q.message.length ≤ 256 then
      ({ q with state := .ReadingPayload }, none)
    else
      (q.reset, none)
  | .ReadingPayload =>
    if p.payload_index < p.message.length then
      let q := { p with
        message := { p.message with
          payload := p.message.payload.set p.payload_index byte }
        payload_index := p.payload_index + 1 }
      let q := q.calculate_checksum byte
      if q.message.length ≤ q.payload_index then
        ({ q with state := .ReadingChecksum1 }, none)
      else
        (q, none)
    else
      (p.reset, none)
  | .ReadingChecksum1 =>
    ({ p with
       message := { p.message with checksum_a := byte }
       state := .ReadingChecksum2 }, none)
  | .ReadingChecksum2 =>
    let q := { p with message := { p.message with checksum_b := byte } }
    if q.calculated_checksum_a = q.message.checksum_a ∧
       q.calculated_checksum_b = q.message.checksum_b then
      (q.reset, q.process_message)
    else
      (q.reset, none)

/-- Feed a byte list to the parser one byte at a time, collecting the
per-byte outputs in order. -/
def feedAll (p : UbxParser) : List Nat → UbxParser × List (Option GpsData)
  | [] => (p, [])
  | b :: bs =>
    let s := p.parse_byte b
    let r := feedAll s.1 bs
    (r.1, s.2 :: r.2)

/-- One step of the rolling checksum of the protocol. -/
def ckStep (ab : Nat × Nat) (byte : Nat) : Nat × Nat :=
  let a := (ab.1 + byte) % 256
  (a, (ab.2 + a) % 256)

/-- The rolling checksum folded over a byte list. -/
def ckList (ab : Nat × Nat) (bs : List Nat) : Nat × Nat := bs.foldl ckStep ab

/-- Write a list of bytes into a buffer at consecutive indices starting at
`i` (the effect of the decoder's sequence of payload stores). -/
def writeList (a : List Nat) (i : Nat) : List Nat → List Nat
  | [] => a
  | b :: bs => writeList (a.set i b) (i + 1) bs

/-- The class/id/length/payload part of a frame (the checksummed bytes). -/
def frameBody (c i : Nat) (pl : List Nat) : List Nat :=
  [c, i, pl.length % 256, pl.length / 256] ++ pl

/-- A complete well-formed frame for class `c`, id `i`, payload `pl`:
sync bytes, body, correct checksum. -/
def mkFrame (c i : Nat) (pl : List Nat) : List Nat :=
  [UBX_SYNC_CHAR_1, UBX_SYNC_CHAR_2] ++ frameBody c i pl ++
    [(ckList (0, 0) (frameBody c i pl)).1, (ckList (0, 0) (frameBody c i pl)).2]

/-- Modelled from the spec (§4.1 payload-decode rules): the record a
payload `pl` must decode to, written directly from the spec's offsets. -/
def pvtRecord (pl : List Nat) : GpsData :=
  { valid := decide (3 ≤ pl.getD 20 0) && decide (Nat.land (pl.getD 21 0) 1 ≠ 0),
    year := u16_le (pl.getD 4 0) (pl.getD 5 0),
    month := pl.getD 6 0,
    day := pl.getD 7 0,
    hour := pl.getD 8 0,
    minute := pl.getD 9 0,
    second := pl.getD 10 0,
    nano := i32_le (pl.getD 16 0) (pl.getD 17 0) (pl.getD 18 0) (pl.getD 19 0),
    latitude := i32_le (pl.getD 28 0) (pl.getD 29 0) (pl.getD 30 0) (pl.getD 31 0),
    longitude := i32_le (pl.getD 24 0) (pl.getD 25 0) (pl.getD 26 0) (pl.getD 27 0),
    height_msl := i32_le (pl.getD 36 0) (pl.getD 37 0) (pl.getD 38 0) (pl.getD 39 0),
    horizontal_accuracy := u32_le (pl.getD 40 0) (pl.getD 41 0) (pl.getD 42 0) (pl.getD 43 0),
    vertical_accuracy := u32_le (pl.getD 44 0) (pl.getD 45 0) (pl.getD 46 0) (pl.getD 47 0),
    ground_speed := i32_le (pl.getD 60 0) (pl.getD 61 0) (pl.getD 62 0) (pl.getD 63 0),
    satellites := pl.getD 23 0 }

/-- Command `UbxConfig::get_port_config_ubx_only` from the source. -/
def UbxConfig.get_port_config_ubx_only : List Nat :=
  [0xB5, 0x62, 0x06, 0x00, 0x14, 0x00, 0x01, 0x00, 0x00, 0x00,
   0x00, 0x23, 0x00, 0x23, 0x00, 0x96, 0x00, 0x00, 0x01, 0x00,
   0x01, 0x00, 0x00, 0x00, 0x00, 0x00, 0x41, 0x28]

/-- Command `UbxConfig::get_enable_nav_pvt` from the source. -/
def UbxConfig.get_enable_nav_pvt : List Nat :=
  [0xB5, 0x62, 0x06, 0x01, 0x03, 0x00, 0x01, 0x07, 0x01, 0x13, 0x51]

/-- Whether a byte list contains the sync pattern `0xB5 0x62` contiguously. -/
def hasSync : List Nat → Bool
  | b1 :: b2 :: rest =>
    (b1 == UBX_SYNC_CHAR_1 && b2 == UBX_SYNC_CHAR_2) || hasSync (b2 :: rest)
  | _ => false

/-- Sync-search automaton on sequences without the sync pattern:
`false` = awaiting the first sync byte, `true` = awaiting the second. -/
def syncOnly (s : Bool) : List Nat → Bool
  | [] => s
  | b :: rest => syncOnly (!s && b == UBX_SYNC_CHAR_1) rest

/-- Length of the trailing run of `0xB5` bytes. -/
def b5run (bs : List Nat) : Nat :=
  bs.foldl (fun acc b => if b = UBX_SYNC_CHAR_1 then acc + 1 else 0) 0

/-- A parser in one of the two sync-searching states with a clean frame in
progress (index and accumulators zero) and message `m`. -/
def awaitP (s : Bool) (m : UbxMessage) : UbxParser :=
  { state := if s then .WaitingForSync2 else .WaitingForSync1, message := m,
    payload_index := 0, calculated_checksum_a := 0, calculated_checksum_b := 0 }

/-- The message contents after a full frame has passed through the decoder
starting from buffer state `m`. -/
def mFin (m : UbxMessage) (c i lo hi : Nat) (pl : List Nat) (ca cb : Nat) :
    UbxMessage :=
  { cls := c, id := i, length := Nat.lor lo (hi * 256 % 65536),
    payload := writeList m.payload 0 pl, checksum_a := ca, checksum_b := cb }

/-- Parsers reachable from the initial parser by feeding bytes. -/
inductive Reachable : UbxParser → Prop where
  | init : Reachable UbxParser.new
  | step (p : UbxParser) (b : Nat) : Reachable p → Reachable (p.parse_byte b).1

/-! ## Basic lemmas about `feedAll` -/

theorem feedAll_nil (p : UbxParser) : feedAll p [] = (p, []) := rfl

theorem feedAll_cons (p : UbxParser) (b : Nat) (bs : List Nat) :
    feedAll p (b :: bs) =
      ((feedAll (p.parse_byte b).1 bs).1,
       (p.parse_byte b).2 :: (feedAll (p.parse_byte b).1 bs).2) := rfl

theorem feedAll_append (xs : List Nat) :
    ∀ (p : UbxParser) (ys : List Nat),
      feedAll p (xs ++ ys) =
        ((feedAll (feedAll p xs).1 ys).1,
         (feedAll p xs).2 ++ (feedAll (feedAll p xs).1 ys).2) := by
  induction xs with
  | nil => intro p ys; rfl
  | cons b bs ih =>
    intro p ys
    simp only [List.cons_append, feedAll_cons, ih]

/-! ## Single-step transition lemmas

Each lemma describes one `parse_byte` step from an explicitly given parser
configuration. -/

theorem step_sync1_hit (m : UbxMessage) (i0 a0 b0 : Nat) :
    UbxParser.parse_byte ⟨.WaitingForSync1, m, i0, a0, b0⟩ 0xB5 =
      (⟨.WaitingForSync2, m, i0, a0, b0⟩, none) := rfl

theorem step_sync1_miss (m : UbxMessage) (i0 a0 b0 b : Nat) (h : b ≠ 0xB5) :
    UbxParser.parse_byte ⟨.WaitingForSync1, m, i0, a0, b0⟩ b =
      (⟨.WaitingForSync1, m, i0, a0, b0⟩, none) := by
  simp only [UbxParser.parse_byte, UBX_SYNC_CHAR_1, if_neg h]

theorem step_sync2_hit (m : UbxMessage) (i0 a0 b0 : Nat) :
    UbxParser.parse_byte ⟨.WaitingForSync2, m, i0, a0, b0⟩ 0x62 =
      (⟨.ReadingClass, m, i0, 0, 0⟩, none) := rfl

theorem step_sync2_miss (m : UbxMessage) (i0 a0 b0 b : Nat) (h : b ≠ 0x62) :
    UbxParser.parse_byte ⟨.WaitingForSync2, m, i0, a0, b0⟩ b =
      (⟨.WaitingForSync1, m, 0, 0, 0⟩, none) := by
  simp only [UbxParser.parse_byte, UBX_SYNC_CHAR_2, if_neg h]
  rfl

theorem step_class (m : UbxMessage) (i0 a0 b0 b : Nat) :
    UbxParser.parse_byte ⟨.ReadingClass, m, i0, a0, b0⟩ b =
      (⟨.ReadingId, { m with cls := b }, i0,
        (a0 + b) % 256, (b0 + (a0 + b) % 256) % 256⟩, none) := rfl

theorem step_id (m : UbxMessage) (i0 a0 b0 b : Nat) :
    UbxParser.parse_byte ⟨.ReadingId, m, i0, a0, b0⟩ b =
      (⟨.ReadingLength1, { m with id := b }, i0,
        (a0 + b) % 256, (b0 + (a0 + b) % 256) % 256⟩, none) := rfl

theorem step_len1 (m : UbxMessage) (i0 a0 b0 b : Nat) :
    UbxParser.parse_byte ⟨.ReadingLength1, m, i0, a0, b0⟩ b =
      (⟨.ReadingLength2, { m with length := b }, i0,
        (a0 + b) % 256, (b0 + (a0 + b) % 256) % 256⟩, none) := rfl

theorem step_len2_zero (m : UbxMessage) (i0 a0 b0 b : Nat)
    (h : Nat.lor m.length (b * 256 % 65536) = 0) :
    UbxParser.parse_byte ⟨.ReadingLength2, m, i0, a0, b0⟩ b =
      (⟨.ReadingChecksum1, { m with length := Nat.lor m.length (b * 256 % 65536) }, 0,
        (a0 + b) % 256, (b0 + (a0 + b) % 256) % 256⟩, none) := by
  simp only [UbxParser.parse_byte, UbxParser.calculate_checksum, if_pos h]

theorem step_len2_payload (m : UbxMessage) (i0 a0 b0 b : Nat)
    (h0 : Nat.lor m.length (b * 256 % 65536) ≠ 0)
    (h1 : Nat.lor m.length (b * 256 % 65536) ≤ 256) :
    UbxParser.parse_byte ⟨.ReadingLength2, m, i0, a0, b0⟩ b =
      (⟨.ReadingPayload, { m with length := Nat.lor m.length (b * 256 % 65536) }, 0,
        (a0 + b) % 256, (b0 + (a0 + b) % 256) % 256⟩, none) := by
  simp only [UbxParser.parse_byte, UbxParser.calculate_checksum, if_neg h0, if_pos h1]

theorem step_len2_big (m : UbxMessage) (i0 a0 b0 b : Nat)
    (h1 : ¬ Nat.lor m.length (b * 256 % 65536) ≤ 256) :
    UbxParser.parse_byte ⟨.ReadingLength2, m, i0, a0, b0⟩ b =
      (⟨.WaitingForSync1, { m with length := Nat.lor m.length (b * 256 % 65536) }, 0,
        0, 0⟩, none) := by
  have h0 : Nat.lor m.length (b * 256 % 65536) ≠ 0 := by
    intro h; exact h1 (by rw [h]; exact Nat.zero_le 256)
  simp only [UbxParser.parse_byte, UbxParser.calculate_checksum, if_neg h0, if_neg h1]
  rfl

theorem step_payload_go (m : UbxMessage) (i0 a0 b0 b : Nat)
    (hin : i0 < m.length) (hmore : ¬ m.length ≤ i0 + 1) :
    UbxParser.parse_byte ⟨.ReadingPayload, m, i0, a0, b0⟩ b =
      (⟨.ReadingPayload, { m with payload := m.payload.set i0 b }, i0 + 1,
        (a0 + b) % 256, (b0 + (a0 + b) % 256) % 256⟩, none) := by
  simp only [UbxParser.parse_byte, UbxParser.calculate_checksum, if_pos hin, if_neg hmore]

theorem step_payload_last (m : UbxMessage) (i0 a0 b0 b : Nat)
    (hin : i0 < m.length) (hlast : m.length ≤ i0 + 1) :
    UbxParser.parse_byte ⟨.ReadingPayload, m, i0, a0, b0⟩ b =
      (⟨.ReadingChecksum1, { m with payload := m.payload.set i0 b }, i0 + 1,
        (a0 + b) % 256, (b0 + (a0 + b) % 256) % 256⟩, none) := by
  simp only [UbxParser.parse_byte, UbxParser.calculate_checksum, if_pos hin, if_pos hlast]

theorem step_payload_oob (m : UbxMessage) (i0 a0 b0 b : Nat)
    (h : ¬ i0 < m.length) :
    UbxParser.parse_byte ⟨.ReadingPayload, m, i0, a0, b0⟩ b =
      (⟨.WaitingForSync1, m, 0, 0, 0⟩, none) := by
  simp only [UbxParser.parse_byte, if_neg h]
  rfl

theorem step_ck1 (m : UbxMessage) (i0 a0 b0 b : Nat) :
    UbxParser.parse_byte ⟨.ReadingChecksum1, m, i0, a0, b0⟩ b =
      (⟨.ReadingChecksum2, { m with checksum_a := b }, i0, a0, b0⟩, none) := rfl

theorem step_ck2_match (m : UbxMessage) (i0 a0 b0 b : Nat)
    (ha : a0 = m.checksum_a) (hb : b0 = b) :
    UbxParser.parse_byte ⟨.ReadingChecksum2, m, i0, a0, b0⟩ b =
      (⟨.WaitingForSync1, { m with checksum_b := b }, 0, 0, 0⟩,
       UbxParser.process_message ⟨.ReadingChecksum2, { m with checksum_b := b }, i0, a0, b0⟩) := by
  simp only [UbxParser.parse_byte]
  rw [if_pos ⟨ha, hb⟩]
  rfl

theorem step_ck2_miss (m : UbxMessage) (i0 a0 b0 b : Nat)
    (h : ¬ (a0 = m.checksum_a ∧ b0 = b)) :
    UbxParser.parse_byte ⟨.ReadingChecksum2, m, i0, a0, b0⟩ b =
      (⟨.WaitingForSync1, { m with checksum_b := b }, 0, 0, 0⟩, none) := by
  simp only [UbxParser.parse_byte]
  rw [if_neg h]
  rfl

/-! ## Helper lemmas: buffers, checksum folds, length assembly -/

theorem getD_set_ne (a : List Nat) :
    ∀ (i j v : Nat), i ≠ j → (a.set i v).getD j 0 = a.getD j 0 := by
  induction a with
  | nil => intro i j v _; rfl
  | cons x xs ih =>
    intro i j v hij
    cases i with
    | zero =>
      cases j with
      | zero => exact absurd rfl hij
      | succ j2 => rfl
    | succ i2 =>
      cases j with
      | zero => rfl
      | succ j2 =>
        have : (x :: xs.set i2 v).getD (j2 + 1) 0 = (xs.set i2 v).getD j2 0 := rfl
        rw [List.set_cons_succ, this, ih i2 j2 v (fun h => hij (by rw [h]))]
        rfl

theorem getD_set_self (a : List Nat) :
    ∀ (i v : Nat), i < a.length → (a.set i v).getD i 0 = v := by
  induction a with
  | nil => intro i v h; simp at h
  | cons x xs ih =>
    intro i v h
    cases i with
    | zero => rfl
    | succ i2 =>
      have : (x :: xs.set i2 v).getD (i2 + 1) 0 = (xs.set i2 v).getD i2 0 := rfl
      rw [List.set_cons_succ, this]
      exact ih i2 v (Nat.lt_of_succ_lt_succ h)

theorem writeList_length (pl : List Nat) :
    ∀ (a : List Nat) (i : Nat), (writeList a i pl).length = a.length := by
  induction pl with
  | nil => intro a i; rfl
  | cons b bs ih =>
    intro a i
    rw [writeList, ih, List.length_set]

theorem getD_writeList_lt (pl : List Nat) :
    ∀ (a : List Nat) (i j : Nat), j < i →
      (writeList a i pl).getD j 0 = a.getD j 0 := by
  induction pl with
  | nil => intro a i j _; rfl
  | cons b bs ih =>
    intro a i j hj
    rw [writeList, ih (a.set i b) (i + 1) j (Nat.lt_succ_of_lt hj),
      getD_set_ne a i j b (fun h => Nat.lt_irrefl j (h ▸ hj))]

theorem getD_writeList (pl : List Nat) :
    ∀ (a : List Nat) (i k : Nat), k < pl.length → i + pl.length ≤ a.length →
      (writeList a i pl).getD (i + k) 0 = pl.getD k 0 := by
  induction pl with
  | nil => intro a i k hk _; simp at hk
  | cons b bs ih =>
    intro a i k hk hle
    cases k with
    | zero =>
      have hi : i < a.length := by
        have := hle
        simp only [List.length_cons] at this
        omega
      have hgoal : (writeList (a.set i b) (i + 1) bs).getD i 0 = b := by
        rw [getD_writeList_lt bs (a.set i b) (i + 1) i (Nat.lt_succ_self i),
          getD_set_self a i b hi]
      rw [writeList]
      simpa using hgoal
    | succ k2 =>
      have h1 : i + (k2 + 1) = (i + 1) + k2 := by omega
      have h2 : k2 < bs.length := by
        simp only [List.length_cons] at hk
        omega
      have h3 : (i + 1) + bs.length ≤ (a.set i b).length := by
        rw [List.length_set]
        simp only [List.length_cons] at hle
        omega
      rw [writeList, h1, ih (a.set i b) (i + 1) k2 h2 h3]
      rfl

theorem ckList_nil (ab : Nat × Nat) : ckList ab [] = ab := rfl

theorem ckList_cons (ab : Nat × Nat) (b : Nat) (bs : List Nat) :
    ckList ab (b :: bs) = ckList (ckStep ab b) bs := rfl

theorem ckList_append (xs ys : List Nat) (ab : Nat × Nat) :
    ckList ab (xs ++ ys) = ckList (ckList ab xs) ys := by
  simp only [ckList, List.foldl_append]

theorem ckList_fst_sum (bs : List Nat) :
    ∀ (ab : Nat × Nat), ab.1 < 256 → (ckList ab bs).1 = (ab.1 + bs.sum) % 256 := by
  induction bs with
  | nil =>
    intro ab hab
    rw [ckList_nil, List.sum_nil, Nat.add_zero, Nat.mod_eq_of_lt hab]
  | cons b bs2 ih =>
    intro ab hab
    rw [ckList_cons, List.sum_cons]
    have h1 : (ckStep ab b).1 = (ab.1 + b) % 256 := rfl
    rw [ih (ckStep ab b) (by rw [h1]; exact Nat.mod_lt _ (by omega))]
    rw [h1, Nat.mod_add_mod, Nat.add_assoc]

theorem lor_len_small (L : Nat) (h : L < 257) :
    Nat.lor (L % 256) (L / 256 * 256 % 65536) = L := by
  rcases Nat.lt_or_ge L 256 with h1 | h1
  · rw [Nat.mod_eq_of_lt h1, Nat.div_eq_of_lt h1]
    exact Nat.or_zero L
  · have h2 : L = 256 := by omega
    subst h2
    decide

/-! ## Multi-step run lemmas -/

theorem feed_payload (pl : List Nat) :
    ∀ (m : UbxMessage) (idx a0 b0 : Nat),
      pl ≠ [] → idx + pl.length = m.length →
      feedAll ⟨.ReadingPayload, m, idx, a0, b0⟩ pl =
        (⟨.ReadingChecksum1, { m with payload := writeList m.payload idx pl },
          m.length, (ckList (a0, b0) pl).1, (ckList (a0, b0) pl).2⟩,
         List.replicate pl.length none) := by
  induction pl with
  | nil => intro m idx a0 b0 hne _; exact absurd rfl hne
  | cons b bs ih =>
    intro m idx a0 b0 _ hlen
    simp only [List.length_cons] at hlen
    cases bs with
    | nil =>
      simp only [List.length_nil] at hlen
      have hin : idx < m.length := by omega
      have hlast : m.length ≤ idx + 1 := by omega
      rw [feedAll_cons, step_payload_last m idx a0 b0 b hin hlast, feedAll_nil]
      have hidx : m.length = idx + 1 := by omega
      rw [hidx]
      rfl
    | cons b2 rest =>
      simp only [List.length_cons] at hlen
      have hin : idx < m.length := by omega
      have hmore : ¬ m.length ≤ idx + 1 := by omega
      rw [feedAll_cons, step_payload_go m idx a0 b0 b hin hmore]
      have hlen2 : (idx + 1) + (b2 :: rest).length =
          ({ m with payload := m.payload.set idx b } : UbxMessage).length := by
        simp only [List.length_cons]
        omega
      rw [ih { m with payload := m.payload.set idx b } (idx + 1)
        ((a0 + b) % 256) ((b0 + (a0 + b) % 256) % 256) (by simp) hlen2]
      rfl

/-- Conversion helpers for `awaitP`. -/
theorem awaitP_false (m : UbxMessage) :
    awaitP false m = ⟨.WaitingForSync1, m, 0, 0, 0⟩ := rfl

theorem awaitP_true (m : UbxMessage) :
    awaitP true m = ⟨.WaitingForSync2, m, 0, 0, 0⟩ := rfl

theorem hasSync_cons_false (b : Nat) (rest : List Nat)
    (h : hasSync (b :: rest) = false) :
    hasSync rest = false ∧ (b = 0xB5 → rest.head? ≠ some 0x62) := by
  cases rest with
  | nil =>
    refine ⟨rfl, fun _ h2 => ?_⟩
    simp at h2
  | cons r2 rr =>
    rw [hasSync] at h
    simp only [Bool.or_eq_false_iff, Bool.and_eq_false_iff, beq_eq_false_iff_ne,
      ne_eq] at h
    refine ⟨h.2, fun hb h2 => ?_⟩
    simp only [List.head?_cons, Option.some.injEq] at h2
    rcases h.1 with h1 | h1
    · exact h1 (by rw [hb]; rfl)
    · exact h1 (by rw [h2]; rfl)

theorem feed_nosync (bs : List Nat) :
    ∀ (s : Bool) (m : UbxMessage), hasSync bs = false →
      (s = true → bs.head? ≠ some 0x62) →
      feedAll (awaitP s m) bs =
        (awaitP (syncOnly s bs) m, List.replicate bs.length none) := by
  induction bs with
  | nil => intro s m _ _; rfl
  | cons b rest ih =>
    intro s m hns hhd
    have htail := hasSync_cons_false b rest hns
    cases s with
    | false =>
      rw [awaitP_false, feedAll_cons]
      by_cases hb : b = 0xB5
      · subst hb
        rw [step_sync1_hit, ← awaitP_true,
          ih true m htail.1 (fun _ => htail.2 rfl)]
        have hso : syncOnly false (0xB5 :: rest) = syncOnly true rest := rfl
        rw [hso]
        rfl
      · rw [step_sync1_miss m 0 0 0 b hb, ← awaitP_false,
          ih false m htail.1 (by simp)]
        have hso : syncOnly false (b :: rest) = syncOnly false rest := by
          rw [syncOnly]
          have : (!false && (b == UBX_SYNC_CHAR_1)) = false := by
            simp [UBX_SYNC_CHAR_1]
            exact hb
          rw [this]
        rw [hso]
        rfl
    | true =>
      have hb2 : b ≠ 0x62 := by
        intro hb
        exact (hhd rfl) (by rw [hb]; rfl)
      rw [awaitP_true, feedAll_cons, step_sync2_miss m 0 0 0 b hb2,
        ← awaitP_false, ih false m htail.1 (by simp)]
      have hso : syncOnly true (b :: rest) = syncOnly false rest := by
        rw [syncOnly]
        rfl
      rw [hso]
      rfl

theorem feed_header_payload (m : UbxMessage) (idx0 a0 b0 c i lo hi : Nat)
    (rest : List Nat)
    (hne : Nat.lor lo (hi * 256 % 65536) ≠ 0)
    (hle : Nat.lor lo (hi * 256 % 65536) ≤ 256) :
    feedAll ⟨.WaitingForSync1, m, idx0, a0, b0⟩
        (0xB5 :: 0x62 :: c :: i :: lo :: hi :: rest) =
      ((feedAll ⟨.ReadingPayload,
          { m with cls := c, id := i, length := Nat.lor lo (hi * 256 % 65536) },
          0, (ckList (0, 0) [c, i, lo, hi]).1, (ckList (0, 0) [c, i, lo, hi]).2⟩ rest).1,
       none :: none :: none :: none :: none :: none ::
         (feedAll ⟨.ReadingPayload,
           { m with cls := c, id := i, length := Nat.lor lo (hi * 256 % 65536) },
           0, (ckList (0, 0) [c, i, lo, hi]).1, (ckList (0, 0) [c, i, lo, hi]).2⟩ rest).2) := by
  rw [feedAll_cons, step_sync1_hit, feedAll_cons, step_sync2_hit,
    feedAll_cons, step_class, feedAll_cons, step_id, feedAll_cons, step_len1,
    feedAll_cons, step_len2_payload]
  · rfl
  · exact hne
  · exact hle

theorem feed_header_zero (m : UbxMessage) (idx0 a0 b0 c i lo hi : Nat)
    (rest : List Nat)
    (hz : Nat.lor lo (hi * 256 % 65536) = 0) :
    feedAll ⟨.WaitingForSync1, m, idx0, a0, b0⟩
        (0xB5 :: 0x62 :: c :: i :: lo :: hi :: rest) =
      ((feedAll ⟨.ReadingChecksum1,
          { m with cls := c, id := i, length := Nat.lor lo (hi * 256 % 65536) },
          0, (ckList (0, 0) [c, i, lo, hi]).1, (ckList (0, 0) [c, i, lo, hi]).2⟩ rest).1,
       none :: none :: none :: none :: none :: none ::
         (feedAll ⟨.ReadingChecksum1,
           { m with cls := c, id := i, length := Nat.lor lo (hi * 256 % 65536) },
           0, (ckList (0, 0) [c, i, lo, hi]).1, (ckList (0, 0) [c, i, lo, hi]).2⟩ rest).2) := by
  rw [feedAll_cons, step_sync1_hit, feedAll_cons, step_sync2_hit,
    feedAll_cons, step_class, feedAll_cons, step_id, feedAll_cons, step_len1,
    feedAll_cons, step_len2_zero]
  · rfl
  · exact hz

theorem feed_header_big (m : UbxMessage) (idx0 a0 b0 c i lo hi : Nat)
    (rest : List Nat)
    (hbig : ¬ Nat.lor lo (hi * 256 % 65536) ≤ 256) :
    feedAll ⟨.WaitingForSync1, m, idx0, a0, b0⟩
        (0xB5 :: 0x62 :: c :: i :: lo :: hi :: rest) =
      ((feedAll ⟨.WaitingForSync1,
          { m with cls := c, id := i, length := Nat.lor lo (hi * 256 % 65536) },
          0, 0, 0⟩ rest).1,
       none :: none :: none :: none :: none :: none ::
         (feedAll ⟨.WaitingForSync1,
           { m with cls := c, id := i, length := Nat.lor lo (hi * 256 % 65536) },
           0, 0, 0⟩ rest).2) := by
  rw [feedAll_cons, step_sync1_hit, feedAll_cons, step_sync2_hit,
    feedAll_cons, step_class, feedAll_cons, step_id, feedAll_cons, step_len1,
    feedAll_cons, step_len2_big]
  exact hbig

theorem out_shape (n : Nat) (r : Option GpsData) :
    (none : Option GpsData) :: none :: none :: none :: none :: none ::
        (List.replicate n (none : Option GpsData) ++ [none, r]) =
      List.replicate (7 + n) none ++ [r] := by
  have h1 : List.replicate n (none : Option GpsData) ++ [none, r] =
      List.replicate (n + 1) none ++ [r] := by
    rw [List.replicate_succ', List.append_assoc]
    rfl
  have h : 7 + n = 6 + (n + 1) := by omega
  conv_rhs => rw [h, List.replicate_add, List.append_assoc]
  rw [h1]
  rfl

theorem feed_cktail (m : UbxMessage) (i0 a0 b0 ca cb : Nat) :
    feedAll ⟨.ReadingChecksum1, m, i0, a0, b0⟩ [ca, cb] =
      (⟨.WaitingForSync1, { m with checksum_a := ca, checksum_b := cb }, 0, 0, 0⟩,
       [none,
        if a0 = ca ∧ b0 = cb then
          UbxParser.process_message
            ⟨.ReadingChecksum2, { m with checksum_a := ca, checksum_b := cb },
             i0, a0, b0⟩
        else none]) := by
  rw [feedAll_cons, step_ck1, feedAll_cons]
  by_cases h : a0 = ca ∧ b0 = cb
  · rw [step_ck2_match _ _ _ _ _ h.1 h.2, if_pos h]
    rfl
  · rw [step_ck2_miss, if_neg h]
    · rfl
    · exact h

theorem run_frame (m : UbxMessage) (idx0 a0 b0 c i lo hi : Nat) (pl : List Nat)
    (ca cb : Nat)
    (hL : pl.length = Nat.lor lo (hi * 256 % 65536))
    (h256 : pl.length ≤ 256) :
    feedAll ⟨.WaitingForSync1, m, idx0, a0, b0⟩
        ([0xB5, 0x62, c, i, lo, hi] ++ pl ++ [ca, cb]) =
      (⟨.WaitingForSync1, mFin m c i lo hi pl ca cb, 0, 0, 0⟩,
       List.replicate (7 + pl.length) none ++
         [if (ckList (0, 0) ([c, i, lo, hi] ++ pl)).1 = ca ∧
             (ckList (0, 0) ([c, i, lo, hi] ++ pl)).2 = cb
          then
            UbxParser.process_message
              ⟨.ReadingChecksum2, mFin m c i lo hi pl ca cb,
               Nat.lor lo (hi * 256 % 65536),
               (ckList (0, 0) ([c, i, lo, hi] ++ pl)).1,
               (ckList (0, 0) ([c, i, lo, hi] ++ pl)).2⟩
          else none]) := by
  have hexp : [0xB5, 0x62, c, i, lo, hi] ++ pl ++ [ca, cb] =
      0xB5 :: 0x62 :: c :: i :: lo :: hi :: (pl ++ [ca, cb]) := by
    simp
  by_cases hplnil : pl = []
  · subst hplnil
    have hz : Nat.lor lo (hi * 256 % 65536) = 0 := by
      rw [← hL]
      rfl
    rw [hexp, feed_header_zero m idx0 a0 b0 c i lo hi ([] ++ [ca, cb]) hz]
    simp only [List.nil_append, List.append_nil, mFin]
    rw [feed_cktail, hz]
    rfl
  · have hpos : 0 < pl.length := List.length_pos.mpr hplnil
    have hne : Nat.lor lo (hi * 256 % 65536) ≠ 0 := by
      rw [← hL]
      omega
    have hle : Nat.lor lo (hi * 256 % 65536) ≤ 256 := by
      rw [← hL]
      exact h256
    have hckall :
        ckList ((ckList (0, 0) [c, i, lo, hi]).1, (ckList (0, 0) [c, i, lo, hi]).2) pl =
          ckList (0, 0) ([c, i, lo, hi] ++ pl) := by
      rw [Prod.mk.eta, ckList_append]
    rw [hexp, feed_header_payload m idx0 a0 b0 c i lo hi (pl ++ [ca, cb]) hne hle,
      feedAll_append pl]
    rw [feed_payload pl]
    · simp only [mFin]
      rw [hckall, feed_cktail, out_shape]
    · exact hplnil
    · exact (Nat.zero_add pl.length).trans hL

theorem sum_set (pl : List Nat) :
    ∀ (j v : Nat), j < pl.length →
      (pl.set j v).sum + pl.getD j 0 = pl.sum + v := by
  induction pl with
  | nil => intro j v hj; simp at hj
  | cons x xs ih =>
    intro j v hj
    cases j with
    | zero =>
      simp only [List.set_cons_zero, List.sum_cons]
      have hx : (x :: xs).getD 0 0 = x := rfl
      rw [hx]
      omega
    | succ j2 =>
      simp only [List.set_cons_succ, List.sum_cons]
      have hx : (x :: xs).getD (j2 + 1) 0 = xs.getD j2 0 := rfl
      rw [hx]
      have := ih j2 v (by simpa using Nat.lt_of_succ_lt_succ hj)
      omega

/-- The decoded result of a complete checksum-valid NAV-PVT frame. -/
theorem process_mFin (m : UbxMessage) (lo hi : Nat) (pl : List Nat)
    (ca cb idx x y : Nat)
    (hp : m.payload.length = 256)
    (hL : pl.length = Nat.lor lo (hi * 256 % 65536))
    (h84 : 84 ≤ pl.length) (h256 : pl.length ≤ 256) :
    UbxParser.process_message
        ⟨.ReadingChecksum2, mFin m 1 7 lo hi pl ca cb, idx, x, y⟩ =
      some (pvtRecord pl) := by
  have hread : ∀ k : Nat, k < 84 →
      (writeList m.payload 0 pl).getD k 0 = pl.getD k 0 := by
    intro k hk
    have h1 := getD_writeList pl m.payload 0 k (by omega) (by rw [hp]; omega)
    simpa using h1
  simp only [UbxParser.process_message, mFin]
  rw [if_pos ⟨rfl, rfl⟩]
  simp only [UbxParser.parse_nav_pvt]
  rw [← hL, if_neg (by omega)]
  simp only [pvtRecord]
  rw [hread 4 (by omega), hread 5 (by omega), hread 6 (by omega),
    hread 7 (by omega), hread 8 (by omega), hread 9 (by omega),
    hread 10 (by omega), hread 16 (by omega), hread 17 (by omega),
    hread 18 (by omega), hread 19 (by omega), hread 20 (by omega),
    hread 21 (by omega), hread 23 (by omega), hread 24 (by omega),
    hread 25 (by omega), hread 26 (by omega), hread 27 (by omega),
    hread 28 (by omega), hread 29 (by omega), hread 30 (by omega),
    hread 31 (by omega), hread 36 (by omega), hread 37 (by omega),
    hread 38 (by omega), hread 39 (by omega), hread 40 (by omega),
    hread 41 (by omega), hread 42 (by omega), hread 43 (by omega),
    hread 44 (by omega), hread 45 (by omega), hread 46 (by omega),
    hread 47 (by omega), hread 60 (by omega), hread 61 (by omega),
    hread 62 (by omega), hread 63 (by omega)]

/-- Feeding a well-formed recognized frame to a decoder whose sync search is
clean (any stale message `m` with the invariant 256-byte buffer): every byte
yields `none` except the final checksum byte, which yields the decoded
record. -/
theorem decode_from_clean (m : UbxMessage) (idx0 a0 b0 : Nat) (pl : List Nat)
    (hp : m.payload.length = 256)
    (h84 : 84 ≤ pl.length) (h256 : pl.length ≤ 256) :
    feedAll ⟨.WaitingForSync1, m, idx0, a0, b0⟩ (mkFrame 1 7 pl) =
      (⟨.WaitingForSync1,
        mFin m 1 7 (pl.length % 256) (pl.length / 256) pl
          (ckList (0, 0) (frameBody 1 7 pl)).1
          (ckList (0, 0) (frameBody 1 7 pl)).2, 0, 0, 0⟩,
       List.replicate (7 + pl.length) none ++ [some (pvtRecord pl)]) := by
  have hL : pl.length =
      Nat.lor (pl.length % 256) (pl.length / 256 * 256 % 65536) :=
    (lor_len_small pl.length (by omega)).symm
  have hshape : mkFrame 1 7 pl =
      [0xB5, 0x62, 1, 7, pl.length % 256, pl.length / 256] ++ pl ++
        [(ckList (0, 0) ([1, 7, pl.length % 256, pl.length / 256] ++ pl)).1,
         (ckList (0, 0) ([1, 7, pl.length % 256, pl.length / 256] ++ pl)).2] := by
    simp [mkFrame, frameBody, UBX_SYNC_CHAR_1, UBX_SYNC_CHAR_2]
  rw [hshape,
    run_frame m idx0 a0 b0 1 7 (pl.length % 256) (pl.length / 256) pl _ _ hL h256,
    if_pos ⟨rfl, rfl⟩,
    process_mFin m (pl.length % 256) (pl.length / 256) pl _ _ _ _ _ hp hL h84 h256]
  have hbody : frameBody 1 7 pl = [1, 7, pl.length % 256, pl.length / 256] ++ pl := rfl
  rw [hbody]

theorem syncOnly_parity (bs : List Nat) :
    ∀ acc : Nat,
      syncOnly (acc % 2 == 1) bs =
        ((bs.foldl (fun a2 b => if b = UBX_SYNC_CHAR_1 then a2 + 1 else 0) acc) % 2 == 1) := by
  induction bs with
  | nil => intro acc; rfl
  | cons b rest ih =>
    intro acc
    rw [syncOnly, List.foldl_cons]
    by_cases hb : b = UBX_SYNC_CHAR_1
    · rw [if_pos hb]
      have h1 : (!(acc % 2 == 1) && (b == UBX_SYNC_CHAR_1)) = ((acc + 1) % 2 == 1) := by
        subst hb
        rcases Nat.mod_two_eq_zero_or_one acc with h | h
        · have h2 : (acc + 1) % 2 = 1 := by omega
          simp [h, h2]
        · have h2 : (acc + 1) % 2 = 0 := by omega
          simp [h, h2]
      rw [h1, ih]
    · rw [if_neg hb]
      have h1 : (!(acc % 2 == 1) && (b == UBX_SYNC_CHAR_1)) = (0 % 2 == 1) := by
        have : (b == UBX_SYNC_CHAR_1) = false := by
          simp [UBX_SYNC_CHAR_1]
          exact hb
        simp [this]
      rw [h1, ih]

/-! ## Claim theorems -/

/-- C2 (amended): feeding a well-formed frame (sync bytes, class 0x01,
id 0x07, declared length = payload length with 84 ≤ length ≤ 256, correct
checksum) byte-by-byte from the initial state yields `none` for every byte
except the final checksum byte, which yields the record extracted by the
§4.1 fixed-offset little-endian rules (`pvtRecord`). -/
theorem ubx_c2 (pl : List Nat) (h84 : 84 ≤ pl.length) (h256 : pl.length ≤ 256) :
    (feedAll UbxParser.new (mkFrame 1 7 pl)).2 =
      List.replicate (7 + pl.length) none ++ [some (pvtRecord pl)] := by
  have hnew : UbxParser.new =
      (⟨.WaitingForSync1, UbxMessage.new, 0, 0, 0⟩ : UbxParser) := rfl
  rw [hnew, decode_from_clean UbxMessage.new 0 0 0 pl
    (List.length_replicate 256 0) h84 h256]

/-- C2 witness: a concrete 84-byte-payload frame decodes on its final byte. -/
theorem ubx_c2_witness :
    84 ≤ (List.replicate 84 0 : List Nat).length ∧
    (List.replicate 84 0 : List Nat).length ≤ 256 ∧
    (feedAll UbxParser.new (mkFrame 1 7 (List.replicate 84 0))).2 =
      List.replicate (7 + (List.replicate 84 (0 : Nat)).length) none ++
        [some (pvtRecord (List.replicate 84 0))] :=
  ⟨by decide, by decide,
   ubx_c2 (List.replicate 84 0) (by decide) (by decide)⟩

/-- C2 counterexample: a frame with correct sync, class 0x01, id 0x07,
declared length 257 (≥ 84) and correct checksum satisfies the claim's
hypotheses as stated, yet its final checksum byte yields `none` (every
byte yields `none`), because the decoder drops frames longer than its
256-byte buffer. -/
theorem ubx_c2_counterexample :
    (feedAll UbxParser.new (mkFrame 1 7 (List.replicate 257 0))).2 =
      List.replicate 265 none := by
  decide

/-- C3 (code bug): the NAV-PVT rate command's final two bytes (0x13, 0x51)
do match the §4.1 checksum of its class/id/length/payload, but the
port-configuration command's final two bytes are (0x41, 0x28) while the
§4.1 checksum of its class/id/length/payload is (0xF9, 0xB0): the
hardcoded checksum in the source is wrong. -/
theorem ubx_c3_code_bug :
    ckList (0, 0) ((UbxConfig.get_enable_nav_pvt.drop 2).take 7) =
      (0x13, 0x51) ∧
    [UbxConfig.get_enable_nav_pvt.getD 9 0,
     UbxConfig.get_enable_nav_pvt.getD 10 0] = [0x13, 0x51] ∧
    ckList (0, 0) ((UbxConfig.get_port_config_ubx_only.drop 2).take 24) =
      (0xF9, 0xB0) ∧
    [UbxConfig.get_port_config_ubx_only.getD 26 0,
     UbxConfig.get_port_config_ubx_only.getD 27 0] = [0x41, 0x28] ∧
    ((0xF9 : Nat), (0xB0 : Nat)) ≠ ((0x41 : Nat), (0x28 : Nat)) := by
  decide

/-- C5 (amended): on any byte sequence without the sync pattern, `consume`
returns `none` for every byte; the decoder finishes in the initial state or
awaiting the second sync byte, and in the initial state exactly when the
trailing run of 0xB5 bytes has even length. -/
theorem ubx_c5 (bs : List Nat) (hns : hasSync bs = false) :
    (feedAll UbxParser.new bs).2 = List.replicate bs.length none ∧
    ((feedAll UbxParser.new bs).1 = UbxParser.new ∨
      (feedAll UbxParser.new bs).1 = awaitP true UbxMessage.new) ∧
    ((feedAll UbxParser.new bs).1 = UbxParser.new ↔ b5run bs % 2 = 0) := by
  have hrun := feed_nosync bs false UbxMessage.new hns (by simp)
  have hA : awaitP false UbxMessage.new = UbxParser.new := rfl
  rw [hA] at hrun
  have hpar : syncOnly false bs = (b5run bs % 2 == 1) := by
    have h0 := syncOnly_parity bs 0
    simpa [b5run] using h0
  rw [hrun, hpar]
  rcases Nat.mod_two_eq_zero_or_one (b5run bs) with h | h
  · rw [h]
    exact ⟨rfl, Or.inl rfl, iff_of_true rfl rfl⟩
  · rw [h]
    refine ⟨rfl, Or.inr rfl, iff_of_false ?_ (by omega)⟩
    intro hcon
    have hstate := congrArg UbxParser.state hcon
    simp [awaitP, UbxParser.new] at hstate

/-- C5 witness: a concrete sync-free sequence ending in 0xB5. -/
theorem ubx_c5_witness :
    hasSync [1, 0xB5] = false ∧
    ((feedAll UbxParser.new [1, 0xB5]).2 = List.replicate 2 none ∧
     ((feedAll UbxParser.new [1, 0xB5]).1 = UbxParser.new ∨
       (feedAll UbxParser.new [1, 0xB5]).1 = awaitP true UbxMessage.new) ∧
     ((feedAll UbxParser.new [1, 0xB5]).1 = UbxParser.new ↔
       b5run [1, 0xB5] % 2 = 0)) :=
  ⟨by decide, ubx_c5 [1, 0xB5] (by decide)⟩

/-- C5 counterexample: `[0xB5]` contains no sync pattern, yet after
consuming it the decoder is (fully, as a structure) not in the initial
state — it is awaiting the second sync byte. -/
theorem ubx_c5_counterexample :
    hasSync [0xB5] = false ∧
    (feedAll UbxParser.new [0xB5]).1 ≠ UbxParser.new := by
  decide

/-- C8: in `WaitingForSync2`, any byte other than 0x62 performs a full
reset (the byte is not re-tested as a sync1 candidate); hence `B5 B5`
returns the decoder to `WaitingForSync1` and `B5 B5 62` does not begin a
frame (the decoder is back in its initial state). -/
theorem ubx_c8 (p : UbxParser) (b : Nat)
    (hst : p.state = .WaitingForSync2) (hb : b ≠ 0x62) :
    (p.parse_byte b).1 = p.reset ∧
    (p.parse_byte b).1.state = .WaitingForSync1 ∧
    (feedAll UbxParser.new [0xB5, 0xB5]).1.state = .WaitingForSync1 ∧
    (feedAll UbxParser.new [0xB5, 0xB5, 0x62]).1 = UbxParser.new := by
  obtain ⟨st, m, i0, a0, b0⟩ := p
  have hst2 : st = .WaitingForSync2 := hst
  subst hst2
  rw [step_sync2_miss m i0 a0 b0 b hb]
  exact ⟨rfl, rfl, by decide, by decide⟩

/-- C8 witness: the concrete byte 0xB5 in `WaitingForSync2`. -/
theorem ubx_c8_witness :
    ((awaitP true UbxMessage.new).parse_byte 0xB5).1 =
      (awaitP true UbxMessage.new).reset ∧
    ((awaitP true UbxMessage.new).parse_byte 0xB5).1.state =
      .WaitingForSync1 ∧
    (feedAll UbxParser.new [0xB5, 0xB5]).1.state = .WaitingForSync1 ∧
    (feedAll UbxParser.new [0xB5, 0xB5, 0x62]).1 = UbxParser.new :=
  ubx_c8 (awaitP true UbxMessage.new) 0xB5 rfl (by decide)

/-- C9 (amended): on every terminal transition (checksum comparison —
successful or not — oversized declared length, or the defensive payload
branch) the decoder itself is reset: state back to `WaitingForSync1`,
payload write index rewound to 0, checksum accumulators zeroed.  The
in-flight frame's fields are not zeroed (see the counterexample); they
retain stale values that are overwritten before any later use. -/
theorem ubx_c9 (p : UbxParser) (b : Nat)
    (hterm : p.state = .ReadingChecksum2 ∨
      (p.state = .ReadingLength2 ∧
        256 < Nat.lor p.message.length (b * 256 % 65536)) ∨
      (p.state = .ReadingPayload ∧ ¬ p.payload_index < p.message.length)) :
    (p.parse_byte b).1.state = .WaitingForSync1 ∧
    (p.parse_byte b).1.payload_index = 0 ∧
    (p.parse_byte b).1.calculated_checksum_a = 0 ∧
    (p.parse_byte b).1.calculated_checksum_b = 0 := by
  obtain ⟨st, m, i0, a0, b0⟩ := p
  rcases hterm with h | ⟨h, hbig⟩ | ⟨h, hoob⟩
  · have h2 : st = .ReadingChecksum2 := h
    subst h2
    by_cases hck : a0 = m.checksum_a ∧ b0 = b
    · rw [step_ck2_match m i0 a0 b0 b hck.1 hck.2]
      exact ⟨rfl, rfl, rfl, rfl⟩
    · rw [step_ck2_miss m i0 a0 b0 b hck]
      exact ⟨rfl, rfl, rfl, rfl⟩
  · have h2 : st = .ReadingLength2 := h
    subst h2
    have hbig2 : 256 < Nat.lor m.length (b * 256 % 65536) := hbig
    rw [step_len2_big m i0 a0 b0 b (by omega)]
    exact ⟨rfl, rfl, rfl, rfl⟩
  · have h2 : st = .ReadingPayload := h
    subst h2
    have hoob2 : ¬ i0 < m.length := hoob
    rw [step_payload_oob m i0 a0 b0 b hoob2]
    exact ⟨rfl, rfl, rfl, rfl⟩

/-- C9 witness: a concrete successful-comparison terminal transition. -/
theorem ubx_c9_witness :
    ((⟨.ReadingChecksum2, UbxMessage.new, 0, 0, 0⟩ : UbxParser).parse_byte 0).1.state =
      .WaitingForSync1 ∧
    ((⟨.ReadingChecksum2, UbxMessage.new, 0, 0, 0⟩ : UbxParser).parse_byte 0).1.payload_index = 0 ∧
    ((⟨.ReadingChecksum2, UbxMessage.new, 0, 0, 0⟩ : UbxParser).parse_byte 0).1.calculated_checksum_a = 0 ∧
    ((⟨.ReadingChecksum2, UbxMessage.new, 0, 0, 0⟩ : UbxParser).parse_byte 0).1.calculated_checksum_b = 0 :=
  ubx_c9 ⟨.ReadingChecksum2, UbxMessage.new, 0, 0, 0⟩ 0 (Or.inl rfl)

/-- C9 counterexample: after a successful decode (a terminal transition)
the in-flight frame is not logically zeroed — its class is 1, its declared
length 84, and the whole message differs from a zeroed message. -/
theorem ubx_c9_counterexample :
    (feedAll UbxParser.new (mkFrame 1 7 (List.replicate 84 0))).1.message.cls = 1 ∧
    (feedAll UbxParser.new (mkFrame 1 7 (List.replicate 84 0))).1.message.length = 84 ∧
    (feedAll UbxParser.new (mkFrame 1 7 (List.replicate 84 0))).1.message ≠
      UbxMessage.new := by
  decide

/-- C1: for every reachable decoder state and every input byte,
`parse_byte` returns `some` record exactly when that byte completes a frame
whose received checksum bytes match the computed checksum, whose class is
0x01 and id is 0x07, and whose declared payload length is at least 84; in
every other case (including checksum-valid frames of other class/id, which
are fully parsed and discarded) it returns `none`. -/
theorem ubx_c1 (p : UbxParser) (b : Nat) (_hr : Reachable p) :
    ((p.parse_byte b).2).isSome = true ↔
      (p.state = .ReadingChecksum2 ∧
       p.calculated_checksum_a = p.message.checksum_a ∧
       p.calculated_checksum_b = b ∧
       p.message.cls = UBX_CLASS_NAV ∧ p.message.id = UBX_NAV_PVT ∧
       84 ≤ p.message.length) := by
  clear _hr
  obtain ⟨st, m, i0, a0, b0⟩ := p
  cases st with
  | WaitingForSync1 =>
    simp only [UbxParser.parse_byte]
    split_ifs <;> simp
  | WaitingForSync2 =>
    simp only [UbxParser.parse_byte]
    split_ifs <;> simp
  | ReadingClass => simp [UbxParser.parse_byte]
  | ReadingId => simp [UbxParser.parse_byte]
  | ReadingLength1 => simp [UbxParser.parse_byte]
  | ReadingLength2 =>
    simp only [UbxParser.parse_byte]
    split_ifs <;> simp
  | ReadingPayload =>
    simp only [UbxParser.parse_byte]
    split_ifs <;> simp
  | ReadingChecksum1 => simp [UbxParser.parse_byte]
  | ReadingChecksum2 =>
    by_cases hck : a0 = m.checksum_a ∧ b0 = b
    · rw [step_ck2_match m i0 a0 b0 b hck.1 hck.2]
      simp only [UbxParser.process_message, UbxParser.parse_nav_pvt]
      split_ifs with h1 h2
      · exact iff_of_false (by simp)
          (fun hcon => absurd hcon.2.2.2.2.2 (by omega))
      · exact iff_of_true rfl ⟨by trivial, hck.1, hck.2, h1.1, h1.2, by omega⟩
      · exact iff_of_false (by simp)
          (fun hcon => h1 ⟨hcon.2.2.2.1, hcon.2.2.2.2.1⟩)
    · rw [step_ck2_miss m i0 a0 b0 b hck]
      exact iff_of_false (by simp)
        (fun hcon => hck ⟨hcon.2.1, hcon.2.2.1⟩)

/-- C1 witness: the initial state with byte 0 (both sides false). -/
theorem ubx_c1_witness :
    ((UbxParser.new.parse_byte 0).2).isSome = true ↔
      (UbxParser.new.state = .ReadingChecksum2 ∧
       UbxParser.new.calculated_checksum_a = UbxParser.new.message.checksum_a ∧
       UbxParser.new.calculated_checksum_b = 0 ∧
       UbxParser.new.message.cls = UBX_CLASS_NAV ∧
       UbxParser.new.message.id = UBX_NAV_PVT ∧
       84 ≤ UbxParser.new.message.length) :=
  ubx_c1 UbxParser.new 0 Reachable.init

/-- C4: starting anywhere in sync search (any stale message, any stale
accumulators), after the two sync bytes, class, id, the two length bytes
and a matching payload, the accumulators that the final comparison will
use equal the §4.1 fold from (0,0) over exactly class, id, length-low,
length-high and the payload bytes in arrival order — the sync bytes, the
stale accumulator contents and the received checksum byte are excluded. -/
theorem ubx_c4 (m : UbxMessage) (idx0 a0 b0 c i lo hi : Nat) (pl : List Nat)
    (ca : Nat)
    (hL : pl.length = Nat.lor lo (hi * 256 % 65536))
    (h256 : pl.length ≤ 256) :
    ((feedAll ⟨.WaitingForSync1, m, idx0, a0, b0⟩
        ([0xB5, 0x62, c, i, lo, hi] ++ pl ++ [ca])).1.state =
      .ReadingChecksum2) ∧
    ((feedAll ⟨.WaitingForSync1, m, idx0, a0, b0⟩
        ([0xB5, 0x62, c, i, lo, hi] ++ pl ++ [ca])).1.calculated_checksum_a =
      (ckList (0, 0) ([c, i, lo, hi] ++ pl)).1) ∧
    ((feedAll ⟨.WaitingForSync1, m, idx0, a0, b0⟩
        ([0xB5, 0x62, c, i, lo, hi] ++ pl ++ [ca])).1.calculated_checksum_b =
      (ckList (0, 0) ([c, i, lo, hi] ++ pl)).2) := by
  have hexp : [0xB5, 0x62, c, i, lo, hi] ++ pl ++ [ca] =
      0xB5 :: 0x62 :: c :: i :: lo :: hi :: (pl ++ [ca]) := by
    simp
  by_cases hplnil : pl = []
  · subst hplnil
    have hz : Nat.lor lo (hi * 256 % 65536) = 0 := by
      rw [← hL]
      rfl
    rw [hexp, feed_header_zero m idx0 a0 b0 c i lo hi ([] ++ [ca]) hz]
    simp only [List.nil_append, List.append_nil]
    rw [feedAll_cons, step_ck1, feedAll_nil]
    exact ⟨rfl, rfl, rfl⟩
  · have hpos : 0 < pl.length := List.length_pos.mpr hplnil
    have hne : Nat.lor lo (hi * 256 % 65536) ≠ 0 := by
      rw [← hL]
      omega
    have hle : Nat.lor lo (hi * 256 % 65536) ≤ 256 := by
      rw [← hL]
      exact h256
    have hckall :
        ckList ((ckList (0, 0) [c, i, lo, hi]).1, (ckList (0, 0) [c, i, lo, hi]).2) pl =
          ckList (0, 0) ([c, i, lo, hi] ++ pl) := by
      rw [Prod.mk.eta, ckList_append]
    rw [hexp, feed_header_payload m idx0 a0 b0 c i lo hi (pl ++ [ca]) hne hle,
      feedAll_append pl]
    rw [feed_payload pl]
    · rw [hckall, feedAll_cons, step_ck1, feedAll_nil]
      exact ⟨rfl, rfl, rfl⟩
    · exact hplnil
    · exact (Nat.zero_add pl.length).trans hL

/-- C4 witness: a one-byte payload at a concrete input. -/
theorem ubx_c4_witness :
    ([5] : List Nat).length = Nat.lor 1 (0 * 256 % 65536) ∧
    (((feedAll ⟨.WaitingForSync1, UbxMessage.new, 0, 0, 0⟩
        ([0xB5, 0x62, 1, 7, 1, 0] ++ [5] ++ [9])).1.state =
      .ReadingChecksum2) ∧
     ((feedAll ⟨.WaitingForSync1, UbxMessage.new, 0, 0, 0⟩
        ([0xB5, 0x62, 1, 7, 1, 0] ++ [5] ++ [9])).1.calculated_checksum_a =
      (ckList (0, 0) ([1, 7, 1, 0] ++ [5])).1) ∧
     ((feedAll ⟨.WaitingForSync1, UbxMessage.new, 0, 0, 0⟩
        ([0xB5, 0x62, 1, 7, 1, 0] ++ [5] ++ [9])).1.calculated_checksum_b =
      (ckList (0, 0) ([1, 7, 1, 0] ++ [5])).2)) :=
  ⟨by decide,
   ubx_c4 UbxMessage.new 0 0 0 1 7 1 0 [5] 9 (by decide) (by decide)⟩

/-- C6 (amended): a frame with declared payload length 257 is dropped at
its second length byte with nothing recorded; its remaining payload and
checksum bytes are rescanned as a fresh byte stream, so provided they
contain no sync pattern and end with an even run of 0xB5 bytes, the whole
oversized frame yields no record and a well-formed recognized frame
appended immediately after still decodes correctly, yielding its record on
its final checksum byte. -/
theorem ubx_c6 (c i : Nat) (pl : List Nat) (ca cb : Nat) (ql : List Nat)
    (hlen : pl.length = 257)
    (hns : hasSync (pl ++ [ca, cb]) = false)
    (hb5 : b5run (pl ++ [ca, cb]) % 2 = 0)
    (h84 : 84 ≤ ql.length) (h256 : ql.length ≤ 256) :
    (feedAll UbxParser.new
        ([0xB5, 0x62, c, i, 0x01, 0x01] ++ (pl ++ [ca, cb]) ++
          mkFrame 1 7 ql)).2 =
      List.replicate (272 + ql.length) none ++ [some (pvtRecord ql)] := by
  have hnew : UbxParser.new =
      (⟨.WaitingForSync1, UbxMessage.new, 0, 0, 0⟩ : UbxParser) := rfl
  have hbig : ¬ Nat.lor 0x01 (0x01 * 256 % 65536) ≤ 256 := by decide
  have hexp : [0xB5, 0x62, c, i, 0x01, 0x01] ++ (pl ++ [ca, cb]) =
      0xB5 :: 0x62 :: c :: i :: 0x01 :: 0x01 :: (pl ++ [ca, cb]) := by
    simp
  have hso : syncOnly false (pl ++ [ca, cb]) = false := by
    have h0 := syncOnly_parity (pl ++ [ca, cb]) 0
    have h1 : syncOnly false (pl ++ [ca, cb]) =
        (b5run (pl ++ [ca, cb]) % 2 == 1) := by
      simpa [b5run] using h0
    rw [h1, hb5]
    rfl
  have hBlen : (pl ++ [ca, cb]).length = 259 := by
    simp [hlen]
  rw [hnew, feedAll_append ([0xB5, 0x62, c, i, 0x01, 0x01] ++ (pl ++ [ca, cb])),
    hexp, feed_header_big UbxMessage.new 0 0 0 c i 0x01 0x01 (pl ++ [ca, cb]) hbig,
    ← awaitP_false, feed_nosync (pl ++ [ca, cb]) false _ hns (by simp), hso,
    awaitP_false, hBlen]
  rw [decode_from_clean]
  · have h265 : ((none : Option GpsData) :: none :: none :: none :: none :: none ::
        List.replicate 259 none) = List.replicate 265 none := rfl
    have hsum : 265 + (7 + ql.length) = 272 + ql.length := by omega
    rw [h265, ← List.append_assoc, ← List.replicate_add, hsum]
  · exact List.length_replicate 256 0
  · exact h84
  · exact h256

/-- C6 witness: an oversized all-zero frame followed by a concrete
recognized frame; the record appears exactly on the final byte. -/
theorem ubx_c6_witness :
    (List.replicate 257 (0 : Nat)).length = 257 ∧
    hasSync (List.replicate 257 0 ++ [0, 0]) = false ∧
    b5run (List.replicate 257 0 ++ [0, 0]) % 2 = 0 ∧
    (feedAll UbxParser.new
        ([0xB5, 0x62, 0, 0, 0x01, 0x01] ++ (List.replicate 257 0 ++ [0, 0]) ++
          mkFrame 1 7 (List.replicate 84 0))).2 =
      List.replicate (272 + (List.replicate 84 (0 : Nat)).length) none ++
        [some (pvtRecord (List.replicate 84 0))] :=
  ⟨by decide, by decide, by decide,
   ubx_c6 0 0 (List.replicate 257 0) 0 0 (List.replicate 84 0)
     (by decide) (by decide) (by decide) (by decide) (by decide)⟩

/-- C6 counterexample: a frame with declared length 257 whose payload bytes
happen to contain a complete valid recognized frame does produce a record
while being consumed, so the claim's "produces no record" fails for
arbitrary payload bytes. -/
theorem ubx_c6_counterexample :
    ((feedAll UbxParser.new
        ([0xB5, 0x62, 0, 0, 0x01, 0x01] ++
          (mkFrame 1 7 (List.replicate 84 0) ++ List.replicate 165 0) ++
          [0, 0])).2).any Option.isSome = true := by
  decide

/-- C7: flipping exactly one payload byte of a well-formed recognized frame
to a different byte value, while keeping the original checksum bytes,
makes every byte of the corrupted frame — including the final checksum
byte — yield `none`. -/
theorem ubx_c7 (pl : List Nat) (j v : Nat)
    (hb : ∀ x ∈ pl, x < 256) (h84 : 84 ≤ pl.length) (h256 : pl.length ≤ 256)
    (hj : j < pl.length) (hv : v < 256) (hvne : v ≠ pl.getD j 0) :
    (feedAll UbxParser.new
        ([0xB5, 0x62, 1, 7, pl.length % 256, pl.length / 256] ++ pl.set j v ++
          [(ckList (0, 0) (frameBody 1 7 pl)).1,
           (ckList (0, 0) (frameBody 1 7 pl)).2])).2 =
      List.replicate (8 + pl.length) none := by
  have hsetlen : (pl.set j v).length = pl.length := List.length_set pl j v
  have hL : (pl.set j v).length =
      Nat.lor (pl.length % 256) (pl.length / 256 * 256 % 65536) := by
    rw [hsetlen]
    exact (lor_len_small pl.length (by omega)).symm
  have hnew : UbxParser.new =
      (⟨.WaitingForSync1, UbxMessage.new, 0, 0, 0⟩ : UbxParser) := rfl
  rw [hnew,
    run_frame UbxMessage.new 0 0 0 1 7 (pl.length % 256) (pl.length / 256)
      (pl.set j v) _ _ hL (by rw [hsetlen]; exact h256)]
  have hbody : frameBody 1 7 pl =
      [1, 7, pl.length % 256, pl.length / 256] ++ pl := rfl
  have hx : pl.getD j 0 < 256 := by
    apply hb
    rw [List.getD_eq_getElem pl 0 hj]
    exact List.getElem_mem hj
  have hA : (ckList (0, 0)
        ([1, 7, pl.length % 256, pl.length / 256] ++ pl.set j v)).1 ≠
      (ckList (0, 0) (frameBody 1 7 pl)).1 := by
    rw [hbody, ckList_fst_sum _ _ (by decide), ckList_fst_sum _ _ (by decide),
      List.sum_append, List.sum_append]
    have hs := sum_set pl j v hj
    omega
  rw [if_neg (fun hand => hA hand.1), hsetlen]
  have hrep : List.replicate (7 + pl.length) (none : Option GpsData) ++ [none] =
      List.replicate (8 + pl.length) none := by
    rw [show 8 + pl.length = (7 + pl.length) + 1 from by omega,
      List.replicate_succ']
  rw [hrep]

/-- C7 witness: flipping payload byte 0 of an all-zero frame to 1. -/
theorem ubx_c7_witness :
    (∀ x ∈ List.replicate 84 (0 : Nat), x < 256) ∧
    (0 : Nat) < (List.replicate 84 (0 : Nat)).length ∧
    (1 : Nat) ≠ (List.replicate 84 (0 : Nat)).getD 0 0 ∧
    (feedAll UbxParser.new
        ([0xB5, 0x62, 1, 7, (List.replicate 84 (0 : Nat)).length % 256,
          (List.replicate 84 (0 : Nat)).length / 256] ++
          (List.replicate 84 (0 : Nat)).set 0 1 ++
          [(ckList (0, 0) (frameBody 1 7 (List.replicate 84 0))).1,
           (ckList (0, 0) (frameBody 1 7 (List.replicate 84 0))).2])).2 =
      List.replicate (8 + (List.replicate 84 (0 : Nat)).length) none :=
  ⟨by decide, by decide, by decide,
   ubx_c7 (List.replicate 84 0) 0 1 (by decide) (by decide) (by decide)
     (by decide) (by decide) (by decide)⟩

/-- C10: in every reachable decoder state the payload buffer has length
exactly 256, and whenever the state is `ReadingPayload` the declared length
is between 1 and 256 and the write index is strictly below it (hence below
256): the payload store is always in bounds and the defensive reset branch
in `ReadingPayload` can never be taken. -/
theorem ubx_c10 (p : UbxParser) (hr : Reachable p) :
    p.message.payload.length = 256 ∧
    (p.state = .ReadingPayload →
      1 ≤ p.message.length ∧ p.message.length ≤ 256 ∧
      p.payload_index < p.message.length ∧ p.payload_index < 256) := by
  induction hr with
  | init =>
    refine ⟨List.length_replicate 256 0, fun h => ?_⟩
    simp [UbxParser.new] at h
  | step q b hq ih =>
    obtain ⟨st, m, i0, a0, b0⟩ := q
    obtain ⟨ih1, ih2⟩ := ih
    cases st with
    | WaitingForSync1 =>
      by_cases hb : b = UBX_SYNC_CHAR_1
      · rw [show b = 0xB5 from hb, step_sync1_hit]
        exact ⟨ih1, fun h => by simp at h⟩
      · rw [step_sync1_miss m i0 a0 b0 b hb]
        exact ⟨ih1, fun h => by simp at h⟩
    | WaitingForSync2 =>
      by_cases hb : b = UBX_SYNC_CHAR_2
      · rw [show b = 0x62 from hb, step_sync2_hit]
        exact ⟨ih1, fun h => by simp at h⟩
      · rw [step_sync2_miss m i0 a0 b0 b hb]
        exact ⟨ih1, fun h => by simp at h⟩
    | ReadingClass =>
      rw [step_class]
      exact ⟨ih1, fun h => by simp at h⟩
    | ReadingId =>
      rw [step_id]
      exact ⟨ih1, fun h => by simp at h⟩
    | ReadingLength1 =>
      rw [step_len1]
      exact ⟨ih1, fun h => by simp at h⟩
    | ReadingLength2 =>
      by_cases hz : Nat.lor m.length (b * 256 % 65536) = 0
      · rw [step_len2_zero m i0 a0 b0 b hz]
        exact ⟨ih1, fun h => by simp at h⟩
      · by_cases hle : Nat.lor m.length (b * 256 % 65536) ≤ 256
        · rw [step_len2_payload m i0 a0 b0 b hz hle]
          refine ⟨ih1, fun _ => ⟨?_, ?_, ?_, ?_⟩⟩
          · show 1 ≤ Nat.lor m.length (b * 256 % 65536)
            omega
          · show Nat.lor m.length (b * 256 % 65536) ≤ 256
            exact hle
          · show 0 < Nat.lor m.length (b * 256 % 65536)
            omega
          · show (0 : Nat) < 256
            decide
        · rw [step_len2_big m i0 a0 b0 b hle]
          exact ⟨ih1, fun h => by simp at h⟩
    | ReadingPayload =>
      by_cases hin : i0 < m.length
      · by_cases hlast : m.length ≤ i0 + 1
        · rw [step_payload_last m i0 a0 b0 b hin hlast]
          refine ⟨?_, fun h => by simp at h⟩
          show (m.payload.set i0 b).length = 256
          rw [List.length_set]
          exact ih1
        · rw [step_payload_go m i0 a0 b0 b hin hlast]
          obtain ⟨hl1, hl2, hidx, _⟩ := ih2 rfl
          have hl2' : m.length ≤ 256 := hl2
          refine ⟨?_, fun _ => ⟨hl1, hl2, ?_, ?_⟩⟩
          · show (m.payload.set i0 b).length = 256
            rw [List.length_set]
            exact ih1
          · show i0 + 1 < m.length
            omega
          · show i0 + 1 < 256
            omega
      · rw [step_payload_oob m i0 a0 b0 b hin]
        exact ⟨ih1, fun h => by simp at h⟩
    | ReadingChecksum1 =>
      rw [step_ck1]
      exact ⟨ih1, fun h => by simp at h⟩
    | ReadingChecksum2 =>
      by_cases hck : a0 = m.checksum_a ∧ b0 = b
      · rw [step_ck2_match m i0 a0 b0 b hck.1 hck.2]
        exact ⟨ih1, fun h => by simp at h⟩
      · rw [step_ck2_miss m i0 a0 b0 b hck]
        exact ⟨ih1, fun h => by simp at h⟩

/-- C10 witness: the initial parser is reachable and satisfies the
invariant. -/
theorem ubx_c10_witness :
    UbxParser.new.message.payload.length = 256 ∧
    (UbxParser.new.state = .ReadingPayload →
      1 ≤ UbxParser.new.message.length ∧
      UbxParser.new.message.length ≤ 256 ∧
      UbxParser.new.payload_index < UbxParser.new.message.length ∧
      UbxParser.new.payload_index < 256) :=
  ubx_c10 UbxParser.new Reachable.init

end UbxGps
